import Mathlib

/-!
# HD44780 4-bit LCD driver (`main.c`)

The driver only ever *writes* hardware registers: it never reads a pin back.
Every C function is therefore embedded as the ordered list of hardware
operations it performs (register writes and busy-waits), and the effect of
such a list on the pins is given by `run`.  Values of type `uint8` are natural
numbers; the conversion to 8 bits that C performs at a call or an assignment
is written `% 256` at that place.
-/

namespace Lcd

/-- Bits of the `LATC` output latch that the driver uses. -/
inductive Pin where
  | LC0
  | LC1
  | LC2
  | LC3
  | LC4
  | LC5
  deriving DecidableEq, Repr

/-- One hardware operation of the program, in program order. -/
inductive Event where
  | latc (pin : Pin) (level : Nat)
  | trisc (value : Nat)
  | delay_us (n : Nat)
  | delay_ms (n : Nat)
  deriving DecidableEq, Repr

def LCD_CLEAR : Nat := 0x01
def LCD_CURSOR_HOME : Nat := 0x02
def LCD_WRITE_ORDINARY : Nat := 0x06
def LCD_ENABLE_DISPLAY : Nat := 0x0c
def LCD_8BIT_MODE : Nat := 0x38
def LCD_4BIT_MODE : Nat := 0x28
def LCD_DDRAM : Nat := 0x80

def LCD_RS : Pin := Pin.LC0
def LCD_EN : Pin := Pin.LC1
def LCD_D4 : Pin := Pin.LC2
def LCD_D5 : Pin := Pin.LC3
def LCD_D6 : Pin := Pin.LC4
def LCD_D7 : Pin := Pin.LC5

/-- Source `write`: puts the four low bits of the chunk on D4..D7. -/
def write (chunk : Nat) : List Event :=
  [ Event.latc LCD_D4 (chunk &&& 0x01),
    Event.latc LCD_D5 ((chunk >>> 1) &&& 0x01),
    Event.latc LCD_D6 ((chunk >>> 2) &&& 0x01),
    Event.latc LCD_D7 ((chunk >>> 3) &&& 0x01) ]

/-- Source `send_enable`: EN high, 5 us busy-wait, EN low. -/
def send_enable : List Event :=
  [ Event.latc LCD_EN 0x1, Event.delay_us 5, Event.latc LCD_EN 0x0 ]

/-- Source `lcd_cmd`. The argument of `write` is converted to `uint8`. -/
def lcd_cmd (cmd : Nat) : List Event :=
  [Event.latc LCD_RS 0x0]
    ++ write ((cmd >>> 4) % 256)
    ++ send_enable
    ++ write cmd
    ++ send_enable

/-- Source `lcd_init`. -/
def lcd_init : List Event :=
  [Event.trisc 0xc0]
    ++ [Event.delay_ms 20]
    ++ lcd_cmd LCD_8BIT_MODE
    ++ [Event.delay_ms 5]
    ++ lcd_cmd LCD_8BIT_MODE
    ++ [Event.delay_ms 150]
    ++ lcd_cmd LCD_8BIT_MODE
    ++ lcd_cmd LCD_CLEAR
    ++ lcd_cmd LCD_CURSOR_HOME
    ++ lcd_cmd LCD_WRITE_ORDINARY
    ++ lcd_cmd LCD_ENABLE_DISPLAY
    ++ lcd_cmd LCD_4BIT_MODE
    ++ lcd_cmd LCD_DDRAM

/-- Source `lcd_cursor`. The decrement wraps in 8 bits, and the sum passed to
`lcd_cmd` is converted to `uint8`. -/
def lcd_cursor (row col : Nat) : List Event :=
  let col := (col + 255) % 256
  if row = 1 then lcd_cmd ((0x80 + col) % 256)
  else if row = 2 then lcd_cmd ((0xc0 + col) % 256)
  else []

/-- Source `lcd_data`. -/
def lcd_data (data : Nat) : List Event :=
  [Event.latc LCD_RS 0x1]
    ++ write ((data >>> 4) % 256)
    ++ send_enable
    ++ write data
    ++ send_enable

/-- Source `lcd_char`. -/
def lcd_char (c : Nat) : List Event :=
  lcd_data c

/-- Source `lcd_str`. The argument lists the bytes stored from the pointer
onwards; the loop stops at the first zero byte. Running off the end of the
listed bytes without meeting a zero is a read outside the object, for which
no result is given. -/
def lcd_str : List Nat → Option (List Event)
  | [] => none
  | c :: rest =>
    if c ≠ 0 then (lcd_str rest).map (fun t => lcd_data c ++ t)
    else some []

/-- Source `lcd_out`. -/
def lcd_out (row col : Nat) (str : List Nat) : Option (List Event) :=
  (lcd_str str).map (fun t => lcd_cursor row col ++ t)

/-- Modelled from the spec: `sprintf` belongs to the C library and is not part
of the source. This is the output of the conversion `%i` for a non-negative
argument: the decimal digits, most significant first, without leading zeros,
as character codes. The first argument bounds the number of digits. -/
def sprintf_digits : Nat → Nat → List Nat → List Nat
  | 0, _, acc => acc
  | fuel + 1, n, acc =>
    if n / 10 = 0 then (48 + n % 10) :: acc
    else sprintf_digits fuel (n / 10) ((48 + n % 10) :: acc)

/-- Modelled from the spec: `sprintf` belongs to the C library and is not part
of the source. Bytes that `sprintf(buffer, "%i", v)` stores at `buffer[0]`,
`buffer[1]`, ... for `v ≥ 0`: the digits followed by the terminating zero. -/
def sprintf_i (v : Nat) : List Nat :=
  sprintf_digits (v + 1) v [] ++ [0]

/-- Source `uint8_toString`: the bytes stored from the start of the buffer. -/
def uint8_toString (decimal : Nat) : List Nat :=
  sprintf_i decimal

/-- Size of the array `buffer` declared in `main`. -/
def buffer_size : Nat := 3

/-! ## Observing a list of operations -/

/-- Levels of the six output pins. -/
structure Pins where
  rs : Nat
  en : Nat
  d4 : Nat
  d5 : Nat
  d6 : Nat
  d7 : Nat
  deriving DecidableEq, Repr

/-- Effect of one operation on the pins. -/
def step (p : Pins) : Event → Pins
  | Event.latc Pin.LC0 v => { p with rs := v }
  | Event.latc Pin.LC1 v => { p with en := v }
  | Event.latc Pin.LC2 v => { p with d4 := v }
  | Event.latc Pin.LC3 v => { p with d5 := v }
  | Event.latc Pin.LC4 v => { p with d6 := v }
  | Event.latc Pin.LC5 v => { p with d7 := v }
  | Event.trisc _ => p
  | Event.delay_us _ => p
  | Event.delay_ms _ => p

/-- Pins after a list of operations. -/
def run (p : Pins) (t : List Event) : Pins :=
  t.foldl step p

/-- Value on the data lines, D7 being the most significant bit. -/
def nibble (p : Pins) : Nat :=
  8 * p.d7 + 4 * p.d6 + 2 * p.d5 + p.d4

/-- What the display latches: at every falling edge of EN, the level of RS and
the value on the data lines at that moment. -/
def latched : Pins → List Event → List (Nat × Nat)
  | _, [] => []
  | p, e :: t =>
    if e = Event.latc LCD_EN 0 ∧ p.en ≠ 0 then (p.rs, nibble p) :: latched (step p e) t
    else latched (step p e) t

/-- Pairs consecutive nibbles, high one first, into bytes (RS of the first). -/
def bytes : List (Nat × Nat) → List (Nat × Nat)
  | (rs, hi) :: (_, lo) :: rest => (rs, 16 * hi + lo) :: bytes rest
  | _ => []

/-- Bytes received by the display in 4-bit mode, each with its RS level
(0 for a command, 1 for a character). -/
def transfers (p : Pins) (t : List Event) : List (Nat × Nat) :=
  bytes (latched p t)

/-- Writes to the data lines D4..D7. -/
def isDataWrite : Event → Bool
  | Event.latc pin _ => pin = LCD_D4 || pin = LCD_D5 || pin = LCD_D6 || pin = LCD_D7
  | _ => false

/-- Every write to RS or to a data line happens while EN is low. -/
def quiet : Pins → List Event → Bool
  | _, [] => true
  | p, e :: t =>
    (match e with
      | Event.latc pin _ => pin = LCD_EN || p.en = 0
      | _ => true) && quiet (step p e) t

/-- Busy-wait, in microseconds, that immediately precedes each write to RS,
that is each byte sent. The first argument is the wait accumulated so far;
any pin write starts the count again. -/
def leadDelays : Nat → List Event → List Nat
  | _, [] => []
  | acc, Event.delay_us n :: t => leadDelays (acc + n) t
  | acc, Event.delay_ms n :: t => leadDelays (acc + 1000 * n) t
  | acc, Event.trisc _ :: t => leadDelays acc t
  | acc, Event.latc pin _ :: t =>
    if pin = LCD_RS then acc :: leadDelays 0 t else leadDelays 0 t

/-- Number of enable pulses completed: falling edges of EN. -/
def enablePulses (p : Pins) (t : List Event) : Nat :=
  (latched p t).length

/-- Each element is greater than the next one. -/
def strictlyDecreasing : List Nat → Bool
  | a :: b :: t => decide (b < a) && strictlyDecreasing (b :: t)
  | _ => true

/-- Reads an unsigned decimal number from a zero-terminated string: digits
only, up to the terminating zero. The second argument is the value read so
far. -/
def parseDecimal : List Nat → Nat → Option Nat
  | [], _ => none
  | c :: rest, acc =>
    if c = 0 then some acc
    else if 48 ≤ c ∧ c ≤ 57 then parseDecimal rest (10 * acc + (c - 48))
    else none

/-! ## Normal forms used in the proofs -/

/-- Pins once `lcd_cmd` (RS level 0) or `lcd_data` (RS level 1) has sent a byte. -/
def pinsAfter (rs b : Nat) : Pins :=
  { rs := rs, en := 0, d4 := b % 2, d5 := b / 2 % 2, d6 := b / 4 % 2, d7 := b / 8 % 2 }

/-- Operations common to `lcd_cmd` and `lcd_data`, with the tail of the trace. -/
def sendOps (rs b : Nat) (rest : List Event) : List Event :=
  Event.latc Pin.LC0 rs ::
    Event.latc Pin.LC2 (b / 16 % 2) :: Event.latc Pin.LC3 (b / 32 % 2) ::
    Event.latc Pin.LC4 (b / 64 % 2) :: Event.latc Pin.LC5 (b / 128 % 2) ::
    Event.latc Pin.LC1 1 :: Event.delay_us 5 :: Event.latc Pin.LC1 0 ::
    Event.latc Pin.LC2 (b % 2) :: Event.latc Pin.LC3 (b / 2 % 2) ::
    Event.latc Pin.LC4 (b / 4 % 2) :: Event.latc Pin.LC5 (b / 8 % 2) ::
    Event.latc Pin.LC1 1 :: Event.delay_us 5 :: Event.latc Pin.LC1 0 :: rest

/-- Operations of `lcd_str` for the characters listed (none of them zero). -/
def textOps (l : List Nat) : List Event :=
  (l.map lcd_data).flatten

end Lcd

namespace Lcd

/-! ## Auxiliary facts -/

theorem write_eq (x : Nat) :
    write x = [Event.latc Pin.LC2 (x % 2), Event.latc Pin.LC3 (x / 2 % 2),
      Event.latc Pin.LC4 (x / 4 % 2), Event.latc Pin.LC5 (x / 8 % 2)] := by
  simp [write, Nat.shiftRight_eq_div_pow, LCD_D4, LCD_D5, LCD_D6, LCD_D7]

theorem lcd_cmd_append (b : Nat) (rest : List Event) :
    lcd_cmd b ++ rest = sendOps 0 b rest := by
  simp only [lcd_cmd, sendOps, write_eq, send_enable, LCD_RS, LCD_EN, List.cons_append,
    List.nil_append, List.append_assoc, Nat.shiftRight_eq_div_pow]
  have h1 : b / 2 ^ 4 % 256 % 2 = b / 16 % 2 := by omega
  have h2 : b / 2 ^ 4 % 256 / 2 % 2 = b / 32 % 2 := by omega
  have h3 : b / 2 ^ 4 % 256 / 4 % 2 = b / 64 % 2 := by omega
  have h4 : b / 2 ^ 4 % 256 / 8 % 2 = b / 128 % 2 := by omega
  rw [h1, h2, h3, h4]

theorem lcd_data_append (b : Nat) (rest : List Event) :
    lcd_data b ++ rest = sendOps 1 b rest := by
  simp only [lcd_data, sendOps, write_eq, send_enable, LCD_RS, LCD_EN, List.cons_append,
    List.nil_append, List.append_assoc, Nat.shiftRight_eq_div_pow]
  have h1 : b / 2 ^ 4 % 256 % 2 = b / 16 % 2 := by omega
  have h2 : b / 2 ^ 4 % 256 / 2 % 2 = b / 32 % 2 := by omega
  have h3 : b / 2 ^ 4 % 256 / 4 % 2 = b / 64 % 2 := by omega
  have h4 : b / 2 ^ 4 % 256 / 8 % 2 = b / 128 % 2 := by omega
  rw [h1, h2, h3, h4]

theorem lcd_cmd_eq (b : Nat) : lcd_cmd b = sendOps 0 b [] := by
  rw [← lcd_cmd_append, List.append_nil]

theorem lcd_data_eq (b : Nat) : lcd_data b = sendOps 1 b [] := by
  rw [← lcd_data_append, List.append_nil]

theorem latched_sendOps (rs b : Nat) (p : Pins) (rest : List Event) :
    latched p (sendOps rs b rest)
      = (rs, b / 16 % 16) :: (rs, b % 16) :: latched (pinsAfter rs b) rest := by
  simp only [sendOps, pinsAfter]
  simp [latched, step, nibble, LCD_EN]
  omega

theorem transfers_sendOps (rs b : Nat) (p : Pins) (rest : List Event) :
    transfers p (sendOps rs b rest) = (rs, b % 256) :: transfers (pinsAfter rs b) rest := by
  unfold transfers
  rw [latched_sendOps]
  show (rs, 16 * (b / 16 % 16) + b % 16) :: bytes (latched (pinsAfter rs b) rest) = _
  congr 2
  omega

theorem run_sendOps (rs b : Nat) (p : Pins) (rest : List Event) :
    run p (sendOps rs b rest) = run (pinsAfter rs b) rest := by
  simp [sendOps, run, step, pinsAfter]

theorem quiet_sendOps (rs b : Nat) (p : Pins) (hen : p.en = 0) (rest : List Event) :
    quiet p (sendOps rs b rest) = quiet (pinsAfter rs b) rest := by
  simp [sendOps, quiet, step, pinsAfter, LCD_EN, hen]

theorem transfers_trisc (v : Nat) (p : Pins) (rest : List Event) :
    transfers p (Event.trisc v :: rest) = transfers p rest := by
  simp [transfers, latched, step]

theorem transfers_delay_ms (n : Nat) (p : Pins) (rest : List Event) :
    transfers p (Event.delay_ms n :: rest) = transfers p rest := by
  simp [transfers, latched, step]

theorem lcd_init_eq :
    lcd_init = Event.trisc 0xc0 :: Event.delay_ms 20 :: sendOps 0 0x38
      (Event.delay_ms 5 :: sendOps 0 0x38 (Event.delay_ms 150 :: sendOps 0 0x38
        (sendOps 0 0x01 (sendOps 0 0x02 (sendOps 0 0x06 (sendOps 0 0x0c
          (sendOps 0 0x28 (sendOps 0 0x80 [])))))))) := by
  decide

theorem textOps_cons (c : Nat) (l : List Nat) :
    textOps (c :: l) = sendOps 1 c (textOps l) := by
  simp only [textOps, List.map_cons, List.flatten_cons, lcd_data_append]

theorem lcd_str_some (s : List Nat) (h : 0 ∈ s) :
    lcd_str s = some (textOps (s.takeWhile (fun c => decide (c ≠ 0)))) := by
  induction s with
  | nil => simp at h
  | cons c rest ih =>
    by_cases hc : c = 0
    · subst hc
      simp [lcd_str, textOps]
    · have hrest : 0 ∈ rest := by
        rcases List.mem_cons.mp h with h0 | h0
        · exact absurd h0.symm hc
        · exact h0
      have hd : decide (c ≠ 0) = true := by simp [hc]
      rw [lcd_str, if_pos hc, ih hrest, List.takeWhile_cons, hd]
      simp [textOps, lcd_data_append]

theorem transfers_textOps (l : List Nat) (hl : ∀ c ∈ l, c < 256) (p : Pins) :
    transfers p (textOps l) = l.map (fun c => (1, c)) := by
  induction l generalizing p with
  | nil => rfl
  | cons c l ih =>
    have hc : c % 256 = c := Nat.mod_eq_of_lt (hl c (List.mem_cons_self c l))
    rw [textOps_cons, transfers_sendOps, hc,
      ih (fun x hx => hl x (List.mem_cons_of_mem c hx)), List.map_cons]

theorem quiet_textOps (l : List Nat) (p : Pins) (hen : p.en = 0) :
    quiet p (textOps l) = true ∧ (run p (textOps l)).en = 0 := by
  induction l generalizing p with
  | nil => exact ⟨rfl, hen⟩
  | cons c l ih =>
    rw [textOps_cons, quiet_sendOps 1 c p hen, run_sendOps]
    exact ih (pinsAfter 1 c) rfl

theorem quiet_trisc (v : Nat) (p : Pins) (rest : List Event) :
    quiet p (Event.trisc v :: rest) = quiet p rest := by
  simp [quiet, step]

theorem quiet_delay_ms (n : Nat) (p : Pins) (rest : List Event) :
    quiet p (Event.delay_ms n :: rest) = quiet p rest := by
  simp [quiet, step]

theorem run_trisc (v : Nat) (p : Pins) (rest : List Event) :
    run p (Event.trisc v :: rest) = run p rest := by
  simp [run, step]

theorem run_delay_ms (n : Nat) (p : Pins) (rest : List Event) :
    run p (Event.delay_ms n :: rest) = run p rest := by
  simp [run, step]

theorem quiet_lcd_cursor_append (row col : Nat) (l : List Nat) (p : Pins) (hen : p.en = 0) :
    quiet p (lcd_cursor row col ++ textOps l) = true
      ∧ (run p (lcd_cursor row col ++ textOps l)).en = 0 := by
  unfold lcd_cursor
  by_cases h1 : row = 1
  · simp only [h1, if_true]
    rw [lcd_cmd_append, quiet_sendOps 0 _ p hen, run_sendOps]
    exact quiet_textOps l _ rfl
  · by_cases h2 : row = 2
    · subst h2
      have h21 : ¬ (2 : Nat) = 1 := by decide
      simp only [h21, if_false, if_true]
      rw [lcd_cmd_append, quiet_sendOps 0 _ p hen, run_sendOps]
      exact quiet_textOps l _ rfl
    · simp only [h1, h2, if_false, List.nil_append]
      exact quiet_textOps l p hen

/-! ## Nibble splitting -/

/-- Claim C1: for every byte `b`, `lcd_cmd b` and `lcd_data b` each write the
data lines exactly twice (eight pin writes in two groups of four). The first
group puts bits 4,5,6,7 of `b` on D4,D5,D6,D7 and the second puts bits
0,1,2,3 there; the display latches the high nibble `b / 16` first and the low
nibble `b % 16` second, and `16 * first + second` is `b`. -/
theorem C1_nibble_split (b : Nat) (hb : b < 256) (p : Pins) :
    (lcd_cmd b).filter isDataWrite
        = [Event.latc LCD_D4 (b / 16 % 2), Event.latc LCD_D5 (b / 32 % 2),
           Event.latc LCD_D6 (b / 64 % 2), Event.latc LCD_D7 (b / 128 % 2),
           Event.latc LCD_D4 (b % 2), Event.latc LCD_D5 (b / 2 % 2),
           Event.latc LCD_D6 (b / 4 % 2), Event.latc LCD_D7 (b / 8 % 2)]
      ∧ (lcd_data b).filter isDataWrite = (lcd_cmd b).filter isDataWrite
      ∧ latched p (lcd_cmd b) = [(0, b / 16), (0, b % 16)]
      ∧ latched p (lcd_data b) = [(1, b / 16), (1, b % 16)]
      ∧ transfers p (lcd_cmd b) = [(0, b)]
      ∧ transfers p (lcd_data b) = [(1, b)]
      ∧ 16 * (b / 16) + b % 16 = b := by
  have h16 : b / 16 % 16 = b / 16 := by omega
  have h256 : b % 256 = b := by omega
  refine ⟨?_, ?_, ?_, ?_, ?_, ?_, by omega⟩
  · rw [lcd_cmd_eq]
    simp [sendOps, isDataWrite, LCD_D4, LCD_D5, LCD_D6, LCD_D7]
  · rw [lcd_cmd_eq, lcd_data_eq]
    simp [sendOps, isDataWrite, LCD_D4, LCD_D5, LCD_D6, LCD_D7]
  · rw [lcd_cmd_eq, latched_sendOps, h16]
    rfl
  · rw [lcd_data_eq, latched_sendOps, h16]
    rfl
  · rw [lcd_cmd_eq, transfers_sendOps, h256]
    rfl
  · rw [lcd_data_eq, transfers_sendOps, h256]
    rfl

theorem C1_nibble_split_witness :
    (0xA5 : Nat) < 256
      ∧ latched (Pins.mk 1 1 1 1 1 1) (lcd_cmd 0xA5) = [(0, 0xA), (0, 0x5)]
      ∧ latched (Pins.mk 1 1 1 1 1 1) (lcd_data 0xA5) = [(1, 0xA), (1, 0x5)] :=
  ⟨by decide,
   (C1_nibble_split 0xA5 (by decide) (Pins.mk 1 1 1 1 1 1)).2.2.1,
   (C1_nibble_split 0xA5 (by decide) (Pins.mk 1 1 1 1 1 1)).2.2.2.1⟩

/-! ## Cursor addressing -/

/-- Claim C2: for every column `col` in 0..255, `lcd_cursor 1 col` is exactly
one command send, of the byte `0x80 + col - 1` taken in 8 bits, and
`lcd_cursor 2 col` is exactly one command send, of the byte `0xC0 + col - 1`
taken in 8 bits. -/
theorem C2_cursor_address (col : Nat) (hcol : col < 256) (p : Pins) :
    lcd_cursor 1 col = lcd_cmd ((0x80 + col - 1) % 256)
      ∧ transfers p (lcd_cursor 1 col) = [(0, (0x80 + col - 1) % 256)]
      ∧ lcd_cursor 2 col = lcd_cmd ((0xC0 + col - 1) % 256)
      ∧ transfers p (lcd_cursor 2 col) = [(0, (0xC0 + col - 1) % 256)] := by
  have e1 : (0x80 + (col + 255) % 256) % 256 = (0x80 + col - 1) % 256 := by omega
  have e2 : (0xc0 + (col + 255) % 256) % 256 = (0xC0 + col - 1) % 256 := by omega
  have c1 : lcd_cursor 1 col = lcd_cmd ((0x80 + col - 1) % 256) := by
    simp only [lcd_cursor, if_true, e1]
  have c2 : lcd_cursor 2 col = lcd_cmd ((0xC0 + col - 1) % 256) := by
    have h21 : ¬ (2 : Nat) = 1 := by decide
    simp only [lcd_cursor, h21, if_false, if_true, e2]
  refine ⟨c1, ?_, c2, ?_⟩
  · rw [c1, lcd_cmd_eq, transfers_sendOps, Nat.mod_mod]
    rfl
  · rw [c2, lcd_cmd_eq, transfers_sendOps, Nat.mod_mod]
    rfl

theorem C2_cursor_address_witness :
    (0 : Nat) < 256
      ∧ transfers (Pins.mk 0 0 0 0 0 0) (lcd_cursor 1 0) = [(0, 0x7F)]
      ∧ transfers (Pins.mk 0 0 0 0 0 0) (lcd_cursor 2 0) = [(0, 0xBF)] :=
  ⟨by decide,
   (C2_cursor_address 0 (by decide) (Pins.mk 0 0 0 0 0 0)).2.1,
   (C2_cursor_address 0 (by decide) (Pins.mk 0 0 0 0 0 0)).2.2.2⟩

/-- Claim C3: for a row other than 1 and 2, and any column, `lcd_cursor`
performs no operation at all (no pin write, no command, no delay), so the pins
keep their levels. -/
theorem C3_cursor_other_rows (row col : Nat) (h1 : row ≠ 1) (h2 : row ≠ 2) (p : Pins) :
    lcd_cursor row col = [] ∧ run p (lcd_cursor row col) = p
      ∧ transfers p (lcd_cursor row col) = [] := by
  have h : lcd_cursor row col = [] := by
    simp only [lcd_cursor, h1, h2, if_false]
  rw [h]
  exact ⟨rfl, rfl, rfl⟩

theorem C3_cursor_other_rows_witness :
    lcd_cursor 3 7 = [] ∧ run (Pins.mk 1 0 1 0 1 0) (lcd_cursor 3 7) = Pins.mk 1 0 1 0 1 0
      ∧ transfers (Pins.mk 1 0 1 0 1 0) (lcd_cursor 3 7) = [] :=
  C3_cursor_other_rows 3 7 (by decide) (by decide) (Pins.mk 1 0 1 0 1 0)

/-! ## Initialisation -/

/-- Claim C4, as stated, fails: started from all pins low, the command bytes
that `lcd_init` sends are not 0x38, 0x38, 0x38, 0x28, 0x01, 0x02, 0x06, 0x0C,
0x80; the fourth byte sent is 0x01, not 0x28. -/
theorem C4_init_sequence_as_stated_fails :
    transfers (Pins.mk 0 0 0 0 0 0) lcd_init
        ≠ [(0, 0x38), (0, 0x38), (0, 0x38), (0, 0x28), (0, 0x01), (0, 0x02), (0, 0x06),
           (0, 0x0C), (0, 0x80)]
      ∧ (transfers (Pins.mk 0 0 0 0 0 0) lcd_init).get? 3 = some (0, LCD_CLEAR) := by
  decide

/-- Claim C4, amended: whatever the pins are on entry, `lcd_init` sends
exactly nine bytes, all of them commands (RS low), in this order: 8-bit mode
(0x38) three times, clear (0x01), cursor home (0x02), entry mode set (0x06),
display enable (0x0C), 4-bit mode (0x28), set DDRAM address (0x80). -/
theorem C4_init_sequence (p : Pins) :
    transfers p lcd_init
      = [(0, LCD_8BIT_MODE), (0, LCD_8BIT_MODE), (0, LCD_8BIT_MODE), (0, LCD_CLEAR),
         (0, LCD_CURSOR_HOME), (0, LCD_WRITE_ORDINARY), (0, LCD_ENABLE_DISPLAY),
         (0, LCD_4BIT_MODE), (0, LCD_DDRAM)]
      ∧ [LCD_8BIT_MODE, LCD_CLEAR, LCD_CURSOR_HOME, LCD_WRITE_ORDINARY, LCD_ENABLE_DISPLAY,
          LCD_4BIT_MODE, LCD_DDRAM] = [0x38, 0x01, 0x02, 0x06, 0x0C, 0x28, 0x80] := by
  refine ⟨?_, rfl⟩
  rw [lcd_init_eq]
  simp only [transfers_trisc, transfers_delay_ms, transfers_sendOps]
  rfl

/-- Claim C8, as stated, fails: in microseconds, the busy-waits that precede
the three 0x38 commands of `lcd_init` are 20000, 5000 and 150000, and those
that follow them are 5000, 150000 and 0; neither sequence is strictly
decreasing. -/
theorem C8_init_delays_as_stated_fails :
    (transfers (Pins.mk 0 0 0 0 0 0) lcd_init).take 3 = [(0, 0x38), (0, 0x38), (0, 0x38)]
      ∧ (leadDelays 0 lcd_init).take 3 = [20000, 5000, 150000]
      ∧ strictlyDecreasing ((leadDelays 0 lcd_init).take 3) = false
      ∧ ((leadDelays 0 lcd_init).drop 1).take 3 = [5000, 150000, 0]
      ∧ strictlyDecreasing (((leadDelays 0 lcd_init).drop 1).take 3) = false := by
  decide

/-- Claim C8, amended: in `lcd_init` the three 0x38 commands are the first
three bytes sent; a busy-wait of 20 ms precedes the first, 5 ms the second and
150 ms the third (20000, 5000 and 150000 us): the second wait is shorter than
the first and the third is the longest. The six later bytes follow without
any busy-wait in between. -/
theorem C8_init_delays (p : Pins) :
    (transfers p lcd_init).take 3
        = [(0, LCD_8BIT_MODE), (0, LCD_8BIT_MODE), (0, LCD_8BIT_MODE)]
      ∧ leadDelays 0 lcd_init = [20000, 5000, 150000, 0, 0, 0, 0, 0, 0]
      ∧ (5000 : Nat) < 20000 ∧ (20000 : Nat) < 150000 := by
  refine ⟨?_, by decide, by decide, by decide⟩
  rw [lcd_init_eq]
  simp only [transfers_trisc, transfers_delay_ms, transfers_sendOps]
  rfl

/-! ## Decimal conversion -/

set_option maxRecDepth 100000

/-- Claim C5: for every value `v` in 0..255, `uint8_toString` stores the
zero-terminated decimal representation of `v`: digits only (no sign), no
leading zero (a first digit `0` only for `v = 0`), then the terminating zero;
and reading that string back as a decimal number gives `v`. -/
theorem C5_toString_roundtrip (v : Nat) (hv : v < 256) :
    uint8_toString v = (Nat.toDigits 10 v).map Char.toNat ++ [0]
      ∧ parseDecimal (uint8_toString v) 0 = some v
      ∧ (∀ c ∈ (uint8_toString v).dropLast, 48 ≤ c ∧ c ≤ 57)
      ∧ ((uint8_toString v).head? = some 48 → v = 0)
      ∧ (uint8_toString v).getLast? = some 0 := by
  revert v
  decide

theorem C5_toString_roundtrip_witness :
    (255 : Nat) < 256
      ∧ uint8_toString 0 = [48, 0]
      ∧ uint8_toString 255 = [50, 53, 53, 0]
      ∧ parseDecimal (uint8_toString 255) 0 = some 255 :=
  ⟨by decide, by decide, by decide, (C5_toString_roundtrip 255 (by decide)).2.1⟩

/-- Claim C10: for a value in 0..255, the number of bytes `uint8_toString`
stores (digits and terminating zero) is at most 3, the size of the buffer in
`main`, exactly when the value is at most 99; for 100..255 it stores 4 bytes,
one more than the buffer holds. So every value up to 99 stays inside the
buffer. -/
theorem C10_toString_length (v : Nat) (hv : v < 256) :
    ((uint8_toString v).length ≤ buffer_size ↔ v ≤ 99)
      ∧ (100 ≤ v → (uint8_toString v).length = buffer_size + 1)
      ∧ (v ≤ 99 → (uint8_toString v).length ≤ buffer_size)
      ∧ buffer_size = 3 := by
  revert v
  decide

theorem C10_toString_length_witness :
    (100 : Nat) < 256 ∧ (uint8_toString 100).length = 4 ∧ (uint8_toString 99).length = 3 :=
  ⟨by decide, (C10_toString_length 100 (by decide)).2.1 (by decide), by decide⟩

/-! ## Strings -/

/-- Claim C7: for every zero-terminated byte string, `lcd_str` returns, and
its operations are the concatenation, in order, of those of `lcd_data c` for
each byte `c` before the first zero; the zero is not sent, and for the empty
string (first byte zero) no operation is performed. -/
theorem C7_lcd_str_trace (s : List Nat) (h : 0 ∈ s) :
    lcd_str s = some (((s.takeWhile (fun c => decide (c ≠ 0))).map lcd_data).flatten)
      ∧ (s.head? = some 0 → lcd_str s = some []) := by
  refine ⟨lcd_str_some s h, ?_⟩
  intro h0
  cases s with
  | nil => simp at h0
  | cons c rest =>
    have hc : c = 0 := by simpa using h0
    simp [lcd_str, hc]

theorem C7_lcd_str_trace_witness :
    (0 : Nat) ∈ [72, 105, 0, 33]
      ∧ lcd_str [72, 105, 0, 33] = some (lcd_data 72 ++ lcd_data 105)
      ∧ lcd_str [0, 33] = some [] :=
  ⟨by decide,
   by simpa using (C7_lcd_str_trace [72, 105, 0, 33] (by decide)).1,
   by decide⟩

/-- Claim C6, as stated, fails: `lcd_out 3 1` of the string "A" sends the
character (RS high) and nothing else; no operation of its trace writes RS low,
so no command precedes the text. -/
theorem C6_lcd_out_as_stated_fails :
    lcd_out 3 1 [65, 0] = some (lcd_data 65)
      ∧ transfers (Pins.mk 0 0 0 0 0 0) (lcd_data 65) = [(1, 65)]
      ∧ Event.latc LCD_RS 0 ∉ lcd_data 65 := by
  decide

/-- Claim C6, amended: for row 1 or 2, every column in 0..255 and every
zero-terminated string of bytes, `lcd_out` returns, and what it sends is one
command (RS low), the set-cursor command of that row and column, followed by
the characters of the string (RS high), in order. -/
theorem C6_lcd_out_cursor_first (row col : Nat) (hrow : row = 1 ∨ row = 2)
    (hcol : col < 256) (s : List Nat) (hs : 0 ∈ s) (hb : ∀ c ∈ s, c < 256) (p : Pins) :
    ∃ t, lcd_out row col s = some t
      ∧ t = lcd_cursor row col ++ ((s.takeWhile (fun c => decide (c ≠ 0))).map lcd_data).flatten
      ∧ transfers p t
          = (0, ((if row = 1 then 0x80 else 0xC0) + col - 1) % 256)
              :: (s.takeWhile (fun c => decide (c ≠ 0))).map (fun c => (1, c)) := by
  have hl : ∀ c ∈ s.takeWhile (fun c => decide (c ≠ 0)), c < 256 :=
    fun c hc => hb c (List.takeWhile_subset _ hc)
  refine ⟨lcd_cursor row col ++ textOps (s.takeWhile (fun c => decide (c ≠ 0))), ?_, rfl, ?_⟩
  · simp only [lcd_out, lcd_str_some s hs, Option.map_some']
  · rcases hrow with h | h
    · subst h
      have e1 : (0x80 + (col + 255) % 256) % 256 = (0x80 + col - 1) % 256 := by omega
      simp only [lcd_cursor, if_true, e1]
      rw [lcd_cmd_append, transfers_sendOps, Nat.mod_mod, transfers_textOps _ hl]
    · subst h
      have e2 : (0xc0 + (col + 255) % 256) % 256 = (0xC0 + col - 1) % 256 := by omega
      have h21 : ¬ (2 : Nat) = 1 := by decide
      simp only [lcd_cursor, h21, if_false, if_true, e2]
      rw [lcd_cmd_append, transfers_sendOps, Nat.mod_mod, transfers_textOps _ hl]

theorem C6_lcd_out_cursor_first_witness :
    ∃ t, lcd_out 2 12 [98, 121, 0] = some t
      ∧ t = lcd_cursor 2 12 ++ ((([98, 121, 0] : List Nat).takeWhile
              (fun c => decide (c ≠ 0))).map lcd_data).flatten
      ∧ transfers (Pins.mk 0 0 0 0 0 0) t
          = (0, ((if (2 : Nat) = 1 then 0x80 else 0xC0) + 12 - 1) % 256)
              :: (([98, 121, 0] : List Nat).takeWhile (fun c => decide (c ≠ 0))).map
                    (fun c => (1, c)) :=
  C6_lcd_out_cursor_first 2 12 (Or.inr rfl) (by decide) [98, 121, 0] (by decide) (by decide)
    (Pins.mk 0 0 0 0 0 0)

/-! ## Enable discipline -/

/-- Claim C9: for every byte `b`, the traces of `lcd_cmd b` and `lcd_data b`
differ only in the level first written to RS (0 and 1), and have the shape
RS write, four data-line writes, EN high, 5 us, EN low, four data-line writes,
EN high, 5 us, EN low. When EN is low on entry, each of `lcd_cmd`, `lcd_data`
and `lcd_char` writes RS and D4..D7 only while EN is low, produces exactly two
enable pulses and leaves EN low; and `lcd_cursor`, `lcd_str`, `lcd_out` and
`lcd_init` likewise write RS and D4..D7 only while EN is low and leave EN
low. -/
theorem C9_enable_discipline (b row col : Nat) (s : List Nat) (hs : 0 ∈ s)
    (p : Pins) (hen : p.en = 0) :
    (lcd_cmd b
        = [Event.latc LCD_RS 0,
           Event.latc LCD_D4 (b / 16 % 2), Event.latc LCD_D5 (b / 32 % 2),
           Event.latc LCD_D6 (b / 64 % 2), Event.latc LCD_D7 (b / 128 % 2),
           Event.latc LCD_EN 1, Event.delay_us 5, Event.latc LCD_EN 0,
           Event.latc LCD_D4 (b % 2), Event.latc LCD_D5 (b / 2 % 2),
           Event.latc LCD_D6 (b / 4 % 2), Event.latc LCD_D7 (b / 8 % 2),
           Event.latc LCD_EN 1, Event.delay_us 5, Event.latc LCD_EN 0])
      ∧ lcd_data b = Event.latc LCD_RS 1 :: (lcd_cmd b).tail
      ∧ (quiet p (lcd_cmd b) = true ∧ enablePulses p (lcd_cmd b) = 2
          ∧ (run p (lcd_cmd b)).en = 0)
      ∧ (quiet p (lcd_data b) = true ∧ enablePulses p (lcd_data b) = 2
          ∧ (run p (lcd_data b)).en = 0)
      ∧ (quiet p (lcd_char b) = true ∧ enablePulses p (lcd_char b) = 2
          ∧ (run p (lcd_char b)).en = 0)
      ∧ (quiet p (lcd_cursor row col) = true ∧ (run p (lcd_cursor row col)).en = 0)
      ∧ (∃ t, lcd_str s = some t ∧ quiet p t = true ∧ (run p t).en = 0)
      ∧ (∃ t, lcd_out row col s = some t ∧ quiet p t = true ∧ (run p t).en = 0)
      ∧ (quiet p lcd_init = true ∧ (run p lcd_init).en = 0) := by
  have hcmd : quiet p (lcd_cmd b) = true ∧ enablePulses p (lcd_cmd b) = 2
      ∧ (run p (lcd_cmd b)).en = 0 := by
    rw [lcd_cmd_eq, quiet_sendOps 0 b p hen, run_sendOps, enablePulses, latched_sendOps]
    exact ⟨rfl, rfl, rfl⟩
  have hdata : quiet p (lcd_data b) = true ∧ enablePulses p (lcd_data b) = 2
      ∧ (run p (lcd_data b)).en = 0 := by
    rw [lcd_data_eq, quiet_sendOps 1 b p hen, run_sendOps, enablePulses, latched_sendOps]
    exact ⟨rfl, rfl, rfl⟩
  refine ⟨?_, ?_, hcmd, hdata, hdata, ?_, ?_, ?_, ?_⟩
  · rw [lcd_cmd_eq]
    rfl
  · rw [lcd_cmd_eq, lcd_data_eq]
    rfl
  · have h := quiet_lcd_cursor_append row col [] p hen
    simpa [textOps] using h
  · exact ⟨_, lcd_str_some s hs, quiet_textOps _ p hen⟩
  · refine ⟨lcd_cursor row col ++ textOps (s.takeWhile (fun c => decide (c ≠ 0))), ?_,
      quiet_lcd_cursor_append row col _ p hen⟩
    simp only [lcd_out, lcd_str_some s hs, Option.map_some']
  · rw [lcd_init_eq]
    simp only [quiet_trisc, quiet_delay_ms, run_trisc, run_delay_ms, run_sendOps]
    rw [quiet_sendOps 0 _ p hen]
    simp only [quiet_delay_ms, quiet_sendOps 0 _ (pinsAfter 0 _) rfl]
    exact ⟨rfl, rfl⟩

theorem C9_enable_discipline_witness :
    (0 : Nat) ∈ [79, 75, 0] ∧ (Pins.mk 1 0 1 1 0 1).en = 0
      ∧ enablePulses (Pins.mk 1 0 1 1 0 1) (lcd_cmd 0x28) = 2
      ∧ quiet (Pins.mk 1 0 1 1 0 1) lcd_init = true
      ∧ quiet (Pins.mk 1 1 1 1 0 1) (lcd_cmd 0x28) = false :=
  ⟨by decide, rfl,
   (C9_enable_discipline 0x28 1 5 [79, 75, 0] (by decide) (Pins.mk 1 0 1 1 0 1) rfl).2.2.1.2.1,
   (C9_enable_discipline 0x28 1 5 [79, 75, 0] (by decide) (Pins.mk 1 0 1 1 0 1) rfl).2.2.2.2.2.2.2.2.1,
   by decide⟩

end Lcd
